import Mathlib

/-!
Verification of the clinical-trial eligibility matching engine:
variable-name normalization, patient variable-set construction, and
inclusion/exclusion evaluation with gender OR-grouping and ignore rules.

The definitions below are a shallow embedding of the Python source
(`agent.py` and `eligibility_testing/verify_eligibility.py`).  Strings are
modelled as Lean `String`s; Python's ASCII-relevant `lower`/`strip`
operations are modelled character-wise over `List Char`.
-/

namespace ClinicalTrial

/-- Python whitespace characters relevant to `str.strip()` / `str.split()`. -/
def isWs (c : Char) : Bool :=
  c == ' ' || c == '\t' || c == '\n' || c == '\x0d' || c == '\x0b' || c == '\x0c'

/-- ASCII lower-casing of a single character, modelling Python `str.lower`. -/
def lowerChar (c : Char) : Char :=
  if 'A' ≤ c ∧ c ≤ 'Z' then Char.ofNat (c.toNat + 32) else c

/-- ASCII upper-casing of a single character, modelling Python `str.upper`. -/
def upperChar (c : Char) : Char :=
  if 'a' ≤ c ∧ c ≤ 'z' then Char.ofNat (c.toNat - 32) else c

/-- Python `s.lower()` on the character list of a string. -/
def pyLower (l : List Char) : List Char := l.map lowerChar

/-- Python `s.strip()`: remove leading and trailing whitespace. -/
def pyStrip (l : List Char) : List Char :=
  ((l.dropWhile isWs).reverse.dropWhile isWs).reverse

/-- The character class `[a-z0-9]` of the `_inthe` regex. -/
def isLowerAlnum (c : Char) : Bool :=
  ('a' ≤ c && c ≤ 'z') || ('0' ≤ c && c ≤ '9')

/-- Does the whole list match the regex `_inthe[a-z0-9]+$`? -/
def intheTail (l : List Char) : Bool :=
  match l with
  | '_' :: 'i' :: 'n' :: 't' :: 'h' :: 'e' :: rest =>
      !rest.isEmpty && rest.all isLowerAlnum
  | _ => false

/-- Model of `re.sub(r'_inthe[a-z0-9]+$', '', s)`: delete the leftmost match of the
anchored pattern, keeping everything before it. -/
def subInthe : List Char → List Char
  | [] => []
  | c :: cs => if intheTail (c :: cs) then [] else c :: subInthe cs

/-- Model of `re.sub(r'_now_in', '_in', s)`: replace every non-overlapping occurrence
left to right; replacement text is not rescanned. -/
def subNowIn : List Char → List Char
  | '_' :: 'n' :: 'o' :: 'w' :: '_' :: 'i' :: 'n' :: rest =>
      '_' :: 'i' :: 'n' :: subNowIn rest
  | c :: cs => c :: subNowIn cs
  | [] => []

/-- The "other basic suffixes" table checked in order, first match wins. -/
def stripBasicSuffix (l : List Char) : List Char :=
  if "_now".data.isSuffixOf l then l.take (l.length - 4)
  else if "_currently".data.isSuffixOf l then l.take (l.length - 10)
  else if "_present".data.isSuffixOf l then l.take (l.length - 8)
  else if "_active".data.isSuffixOf l then l.take (l.length - 7)
  else l

/-- The full normalization pipeline of `agent.py` on a character list:
lower-case, strip, `_inthe*` suffix removal, `_now_in` → `_in`, then one
literal suffix from the fixed table. -/
def normList (l : List Char) : List Char :=
  stripBasicSuffix (subNowIn (subInthe (pyStrip (pyLower l))))

/-- The method `normalize_variable_name` of `ClinicalTrialMatchingAgent` in `agent.py`. -/
def normalize_variable_name (s : String) : String :=
  String.mk (normList s.data)

namespace Verify

/-- The function `normalize_variable_name` from
`eligibility_testing/verify_eligibility.py`: lower-case (no strip), `_inthe*`
suffix removal, then one literal suffix; it has no `_now_in` substitution. -/
def normalize_variable_name (s : String) : String :=
  String.mk (stripBasicSuffix (subInthe (pyLower s.data)))

end Verify


/-- Substring containment, modelling Python's `in` on strings. -/
def containsSub (pat : List Char) : List Char → Bool
  | [] => pat.isPrefixOf ([] : List Char)
  | c :: cs => pat.isPrefixOf (c :: cs) || containsSub pat cs

/-- The method `is_gender_criterion` from `agent.py`. -/
def is_gender_criterion (criterion : String) : Bool :=
  let normalized := pyLower criterion.data
  containsSub "patient_sex_is_".data normalized ||
    containsSub "patient_gender_is_".data normalized

/-- The method `should_ignore_criterion` from `agent.py`. -/
def should_ignore_criterion (criterion : String) : Bool :=
  let normalized := pyLower criterion.data
  containsSub "patient_age_value_recorded".data normalized &&
    (containsSub "in_months".data normalized || containsSub "in_days".data normalized)

/-- The method `get_mutually_exclusive_gender_criteria` from `agent.py`: all gender
criteria form one OR-group when there are at least two of them. -/
def get_mutually_exclusive_gender_criteria (criteria : List String) : List (List String) :=
  let gender_criteria := criteria.filter is_gender_criterion
  if gender_criteria.length ≤ 1 then [] else [gender_criteria]

/-- A JSON-ish scalar as carried by `extracted_value`. `null` models a key
that is present with Python `None`. -/
inductive Value where
  | int (n : Int)
  | bool (b : Bool)
  | str (s : String)
  | null
deriving DecidableEq, Repr

/-- Python truthiness of a `Value`. -/
def pyTruthy : Value → Bool
  | .int n => n != 0
  | .bool b => b
  | .str s => s != ""
  | .null => false

/-- Python f-string rendering of a `Value`. -/
def pyFormat : Value → String
  | .int n => toString n
  | .bool b => if b then "True" else "False"
  | .str s => s
  | .null => "None"

/-- A patient-side condition record; `none` fields model absent JSON keys. -/
structure Condition where
  conceptId : Option String := none
  preferred_term : Option String := none
  entity_variable_name : Option String := none
  span_match : Option String := none
  extracted_value : Option Value := none
  type : Option String := none
deriving DecidableEq, Repr

/-- The per-variable detail dict built by `build_patient_variable_set`;
`extracted_value`/`type` are present only if the source condition had them. -/
structure Detail where
  preferred_term : Option String
  conceptId : Option String
  span_match : Option String
  extracted_value : Option Value := none
  type : Option String := none
deriving DecidableEq, Repr

/-- A patient record; `conditions := none` models a missing `conditions` key. -/
structure PatientProfile where
  conditions : Option (List Condition) := none
deriving DecidableEq, Repr

/-- A trial record; `none` models a missing criteria key. -/
structure TrialProfile where
  inclusion_criteria : Option (List String) := none
  exclusion_criteria : Option (List String) := none
deriving DecidableEq, Repr

/-- String membership in a list, modelling Python set membership. -/
def memStr : List String → String → Bool
  | [], _ => false
  | x :: xs, s => if x = s then true else memStr xs s

/-- Set insertion (no duplicates), modelling `set.add`. -/
def addVar (vs : List String) (v : String) : List String :=
  if memStr vs v then vs else vs ++ [v]

/-- The `details` dict: association list from normalized key to detail list. -/
abbrev DetailMap := List (String × List Detail)

/-- Append a detail record under a key, creating the key on first use
(insertion order preserved, as for a Python dict). -/
def addDetail : DetailMap → String → Detail → DetailMap
  | [], k, d => [(k, [d])]
  | (k', ds) :: rest, k, d =>
      if k' = k then (k', ds ++ [d]) :: rest else (k', ds) :: addDetail rest k d

/-- Dictionary lookup `details.get(k, [])`. -/
def lookupDetails : DetailMap → String → List Detail
  | [], _ => []
  | (k', ds) :: rest, k => if k' = k then ds else lookupDetails rest k

/-- The detail dict built for one condition inside
`build_patient_variable_set`. -/
def detailOfCondition (c : Condition) : Detail :=
  { preferred_term := c.preferred_term, conceptId := c.conceptId,
    span_match := c.span_match, extracted_value := c.extracted_value,
    type := c.type }

/-- The method `build_patient_variable_set` from `agent.py`: normalized variable set and
per-key detail records; conditions with a missing or empty
`entity_variable_name` are skipped. -/
def build_patient_variable_set (p : PatientProfile) : List String × DetailMap :=
  (p.conditions.getD []).foldl
    (fun acc cond =>
      match cond.entity_variable_name with
      | some ev =>
          if ev ≠ "" then
            let n := normalize_variable_name ev
            (addVar acc.1 n, addDetail acc.2 n (detailOfCondition cond))
          else acc
      | none => acc)
    ([], [])

/-- Worker for `replaceAll`: the `Nat` argument counts characters of a
just-matched occurrence still to be consumed. -/
def replaceAllGo (pat rep : List Char) : List Char → Nat → List Char
  | [], _ => []
  | _ :: cs, skip + 1 => replaceAllGo pat rep cs skip
  | c :: cs, 0 =>
      if pat.isPrefixOf (c :: cs) then
        rep ++ replaceAllGo pat rep cs (pat.length - 1)
      else c :: replaceAllGo pat rep cs 0

/-- Model of `str.replace(pat, rep)` for a non-empty `pat`: replace every
non-overlapping occurrence left to right, without rescanning replacement
text. -/
def replaceAll (pat rep l : List Char) : List Char := replaceAllGo pat rep l 0

/-- The `prefixes_to_remove` step of `format_criterion_name` (first match
wins). -/
def stripLeadingTag (readable : List Char) : List Char :=
  if "patient_has_".data.isPrefixOf readable then readable.drop 12
  else if "patient_can_".data.isPrefixOf readable then readable.drop 12
  else if "patients_".data.isPrefixOf readable then readable.drop 9
  else if "patient_".data.isPrefixOf readable then readable.drop 8
  else readable

/-- The extracted-value scan of `format_criterion_name`: first detail entry
that triggers a special-cased demographic label returns early. -/
def scanDetails (lowered : List Char) : List Detail → Option String
  | [] => none
  | d :: rest =>
      match d.extracted_value with
      | some v =>
          if containsSub "age".data lowered && (d.type == some "Int") then
            some ("age of " ++ pyFormat v ++ " years")
          else if containsSub "sex".data lowered && (d.type == some "Bool") then
            if containsSub "female".data lowered && pyTruthy v then
              some "female gender"
            else if containsSub "male".data lowered && pyTruthy v then
              some "male gender"
            else scanDetails lowered rest
          else scanDetails lowered rest
      | none => scanDetails lowered rest

/-- The ordered replacement table of `format_criterion_name`. -/
def format_replacements : List (String × String) :=
  [("inthehistory", "in the past"), ("inthe history", "in the past"),
   ("in thehistory", "in the past"), ("in the history", "in the past"),
   (" now", " currently"), (" hx", " history"), (" dx", " diagnosis"),
   (" tx", " treatment"), ("undergone ", ""), ("underwent ", ""),
   ("diagnosis of ", ""), ("finding of ", ""), ("symptoms of ", "")]

/-- Apply the replacement table in order. -/
def applyReplacements (l : List Char) : List Char :=
  format_replacements.foldl (fun acc pr => replaceAll pr.1.data pr.2.data acc) l

/-- Python `' '.join(s.split())`: collapse whitespace runs, trimming the ends. -/
def collapseWs (l : List Char) : List Char :=
  List.intercalate " ".data ((l.splitOnP isWs).filter (fun w => !w.isEmpty))

/-- Upper-case the first character (`readable[0].upper() + readable[1:]`). -/
def capitalizeFirst : List Char → List Char
  | [] => []
  | c :: cs => upperChar c :: cs

/-- The method `format_criterion_name` from `agent.py`. -/
def format_criterion_name (criterion : String) (details : Option (List Detail)) : String :=
  let lowered := pyLower criterion.data
  let readable := stripLeadingTag lowered
  match scanDetails lowered (details.getD []) with
  | some s => s
  | none =>
      let r1 := replaceAll "_".data " ".data readable
      let r2 := applyReplacements r1
      let r3 := collapseWs r2
      String.mk (capitalizeFirst r3)


/-- One classified entry of the reasoning output.  Optional fields model
dict keys that are present only for some entry kinds. -/
structure Entry where
  criterion : String
  normalized : String
  patient_has : Bool
  details : Option (List Detail) := none
  readable_name : String
  is_gender_group : Option Bool := none
  gender_group_options : Option (List String) := none
deriving DecidableEq, Repr

/-- The `details` sub-dict of the inclusion summary. -/
structure InclusionDetails where
  met : List Entry
  missing : List Entry
deriving DecidableEq, Repr

/-- The `inclusion_criteria` part of the reasoning output. -/
structure InclusionSummary where
  total : Nat
  met : Nat
  missing : Nat
  details : InclusionDetails
deriving DecidableEq, Repr

/-- The `details` sub-dict of the exclusion summary. -/
structure ExclusionDetails where
  satisfied : List Entry
  violated : List Entry
deriving DecidableEq, Repr

/-- The `exclusion_criteria` part of the reasoning output. -/
structure ExclusionSummary where
  total : Nat
  satisfied : Nat
  violated : Nat
  details : ExclusionDetails
deriving DecidableEq, Repr

/-- The reasoning object returned by `check_trial_eligibility`. -/
structure Reasoning where
  eligible : Bool
  inclusion_criteria : InclusionSummary
  exclusion_criteria : ExclusionSummary
deriving DecidableEq, Repr

/-- The entry appended when the patient has the criterion's normalized key
(inclusion `met` and exclusion `violated` share this shape). -/
def mkHasEntry (pd : DetailMap) (c : String) : Entry :=
  let n := normalize_variable_name c
  let ds := lookupDetails pd n
  { criterion := c, normalized := n, patient_has := true,
    details := some ds, readable_name := format_criterion_name c (some ds) }

/-- The entry appended when the patient lacks the criterion's normalized key
(inclusion `missing` and exclusion `satisfied` share this shape). -/
def mkNotHasEntry (c : String) : Entry :=
  { criterion := c, normalized := normalize_variable_name c,
    patient_has := false, readable_name := format_criterion_name c none }

/-- The inclusion loop of `check_trial_eligibility` over criteria that are
not in the gender group; returns `(met, missing)` in input order. -/
def evalUngroupedInclusion (pv : List String) (pd : DetailMap)
    (grp : List String) : List String → List Entry × List Entry
  | [] => ([], [])
  | c :: cs =>
      let rest := evalUngroupedInclusion pv pd grp cs
      if memStr grp c then rest
      else if memStr pv (normalize_variable_name c) then
        (mkHasEntry pd c :: rest.1, rest.2)
      else (rest.1, mkNotHasEntry c :: rest.2)

/-- The `met` entry appended when some criterion of a gender group matches. -/
def mkGenderMetEntry (pd : DetailMap) (c : String) (group : List String) : Entry :=
  let n := normalize_variable_name c
  let ds := lookupDetails pd n
  { criterion := c, normalized := n, patient_has := true, details := some ds,
    readable_name := format_criterion_name c (some ds),
    is_gender_group := some true, gender_group_options := some group }

/-- Python `' OR '.join(parts)` with `str.join` semantics. -/
def joinOR : List String → String
  | [] => ""
  | g :: gs => gs.foldl (fun acc x => acc ++ " OR " ++ x) g

/-- The single `missing` entry appended when no criterion of a gender group
matches. -/
def mkGenderMissingEntry (group : List String) : Entry :=
  { criterion := joinOR group,
    normalized := "gender_criterion_group", patient_has := false,
    readable_name := "Gender: " ++ joinOR
      (group.map (fun c => format_criterion_name c none)),
    is_gender_group := some true }

/-- The gender-group loop of `check_trial_eligibility`: for each group, the
first matching criterion wins; otherwise one group-wide missing entry. -/
def evalGenderGroups (pv : List String) (pd : DetailMap)
    (acc : List Entry × List Entry) (groups : List (List String)) :
    List Entry × List Entry :=
  groups.foldl
    (fun acc group =>
      match group.find? (fun c => memStr pv (normalize_variable_name c)) with
      | some c => (acc.1 ++ [mkGenderMetEntry pd c group], acc.2)
      | none => (acc.1, acc.2 ++ [mkGenderMissingEntry group]))
    acc

/-- The exclusion loop of `check_trial_eligibility`; returns
`(satisfied, violated)` in input order. -/
def evalExclusion (pv : List String) (pd : DetailMap) :
    List String → List Entry × List Entry
  | [] => ([], [])
  | c :: cs =>
      let rest := evalExclusion pv pd cs
      if memStr pv (normalize_variable_name c) then
        (rest.1, mkHasEntry pd c :: rest.2)
      else (mkNotHasEntry c :: rest.1, rest.2)

/-- The trial's inclusion list after the ignore-rule filter. -/
def filteredInclusion (t : TrialProfile) : List String :=
  (t.inclusion_criteria.getD []).filter (fun c => !should_ignore_criterion c)

/-- The trial's exclusion list after the ignore-rule filter. -/
def filteredExclusion (t : TrialProfile) : List String :=
  (t.exclusion_criteria.getD []).filter (fun c => !should_ignore_criterion c)

/-- The flattened set of criteria covered by gender groups
(`gender_criteria_in_groups`). -/
def genderGroupSet (groups : List (List String)) : List String :=
  groups.foldl (fun acc g => acc ++ g) []

/-- The method `check_trial_eligibility` from `agent.py`. -/
def check_trial_eligibility (p : PatientProfile) (t : TrialProfile) : Reasoning :=
  let pv := (build_patient_variable_set p).1
  let pd := (build_patient_variable_set p).2
  let inclusion_criteria := filteredInclusion t
  let exclusion_criteria := filteredExclusion t
  let gender_groups := get_mutually_exclusive_gender_criteria inclusion_criteria
  let gender_criteria_in_groups := genderGroupSet gender_groups
  let base := evalUngroupedInclusion pv pd gender_criteria_in_groups inclusion_criteria
  let incl := evalGenderGroups pv pd base gender_groups
  let excl := evalExclusion pv pd exclusion_criteria
  let is_eligible := incl.2.isEmpty && excl.2.isEmpty
  { eligible := is_eligible,
    inclusion_criteria :=
      { total := inclusion_criteria.length,
        met := incl.1.length, missing := incl.2.length,
        details := { met := incl.1, missing := incl.2 } },
    exclusion_criteria :=
      { total := exclusion_criteria.length,
        satisfied := excl.1.length, violated := excl.2.length,
        details := { satisfied := excl.1, violated := excl.2 } } }

/-- Scenario-A patient of §8 of the spec. -/
def scenPatient : PatientProfile :=
  { conditions := some
      [{ entity_variable_name := some "patient_has_diabetes_now" },
       { entity_variable_name := some "patient_age_value_recorded_in_years" }] }

/-! ### Decomposition of `check_trial_eligibility` -/

/-- The patient's normalized variable set. -/
def pvOf (p : PatientProfile) : List String := (build_patient_variable_set p).1

/-- The patient's per-key detail map. -/
def pdOf (p : PatientProfile) : DetailMap := (build_patient_variable_set p).2

/-- The gender OR-groups computed from the trial's filtered inclusion list. -/
def groupsOf (t : TrialProfile) : List (List String) :=
  get_mutually_exclusive_gender_criteria (filteredInclusion t)

/-- The `(met, missing)` pair computed by the inclusion part of
`check_trial_eligibility`. -/
def inclPair (p : PatientProfile) (t : TrialProfile) : List Entry × List Entry :=
  evalGenderGroups (pvOf p) (pdOf p)
    (evalUngroupedInclusion (pvOf p) (pdOf p) (genderGroupSet (groupsOf t))
      (filteredInclusion t))
    (groupsOf t)

/-- The `(satisfied, violated)` pair computed by the exclusion part of
`check_trial_eligibility`. -/
def exclPair (p : PatientProfile) (t : TrialProfile) : List Entry × List Entry :=
  evalExclusion (pvOf p) (pdOf p) (filteredExclusion t)

/-! ### Concrete records used by counterexamples and witnesses -/

/-- A patient with an empty condition list. -/
def pEmpty : PatientProfile := { conditions := some [] }

/-- A trial whose filtered inclusion list holds two distinct gender criteria. -/
def tTwoGender : TrialProfile :=
  { inclusion_criteria := some ["patient_sex_is_male", "patient_sex_is_female"],
    exclusion_criteria := some [] }

/-- A patient whose only condition normalizes to `patient_sex_is_female`. -/
def pFemale : PatientProfile :=
  { conditions := some
      [{ entity_variable_name := some "patient_sex_is_female_now",
         preferred_term := some "Female sex",
         conceptId := some "C-F",
         extracted_value := some (.bool true),
         type := some "Bool" }] }

/-- A trial containing ignorable age-in-months/days criteria. -/
def tIgnore : TrialProfile :=
  { inclusion_criteria :=
      some ["patient_age_value_recorded_in_months", "patient_has_diabetes"],
    exclusion_criteria := some ["patient_age_value_recorded_in_days"] }

/-- A trial listing the same gender criterion twice. -/
def tDupGender : TrialProfile :=
  { inclusion_criteria := some ["patient_sex_is_male", "patient_sex_is_male"],
    exclusion_criteria := some [] }

/-- A trial duplicating a non-gender criterion in both lists. -/
def tDupPlain : TrialProfile :=
  { inclusion_criteria := some ["patient_has_diabetes", "patient_has_diabetes"],
    exclusion_criteria :=
      some ["patient_has_hypertension", "patient_has_hypertension"] }

example : normalize_variable_name "patient_has_diabetes_inthehistory" = "patient_has_diabetes" := by decide
example : normalize_variable_name "patient_has_diabetes_now" = "patient_has_diabetes" := by decide
example : normalize_variable_name "A_Now_In_Years " = "a_in_years" := by decide
example : normalize_variable_name "a_now_now" = "a_now" := by decide
example : Verify.normalize_variable_name "a_now_in_years" = "a_now_in_years" := by decide

example : format_criterion_name "patient_sex_is_male" none = "Sex is male" := by decide
example : format_criterion_name "patient_has_diabetes_inthehistory" none = "Diabetes in the past" := by decide

example :
    (check_trial_eligibility scenPatient
      { inclusion_criteria := some ["patient_has_diabetes", "patient_has_hypertension"],
        exclusion_criteria := some [] }).eligible = false := by decide

example :
    (check_trial_eligibility scenPatient
      { inclusion_criteria := some ["patient_has_diabetes", "patient_has_hypertension"],
        exclusion_criteria := some [] }).inclusion_criteria.met = 1 := by decide

example :
    (check_trial_eligibility scenPatient
      { inclusion_criteria := some ["patient_has_diabetes"],
        exclusion_criteria := some ["patient_has_hypertension"] }).eligible = true := by decide

example :
    (check_trial_eligibility { conditions := some [] }
      { inclusion_criteria := some ["patient_sex_is_male", "patient_sex_is_female"],
        exclusion_criteria := some [] }).inclusion_criteria.missing = 1 := by decide

example :
    (check_trial_eligibility { conditions := some [] }
      { inclusion_criteria := some ["patient_sex_is_male", "patient_sex_is_female"],
        exclusion_criteria := some [] }).inclusion_criteria.total = 2 := by decide

/-! ### Lemmas about the string helpers -/

theorem memStr_iff (l : List String) (s : String) : memStr l s = true ↔ s ∈ l := by
  induction l with
  | nil => simp [memStr]
  | cons x xs ih =>
      by_cases h : x = s
      · simp [memStr, h]
      · simp [memStr, h, ih, show ¬s = x from fun hh => h hh.symm]

theorem isPrefixOf_append {pat l l2 : List Char} (h : pat.isPrefixOf l = true) :
    pat.isPrefixOf (l ++ l2) = true := by
  rw [List.isPrefixOf_iff_prefix] at h ⊢
  exact h.trans (l.prefix_append l2)

theorem containsSub_append_right {pat l l2 : List Char}
    (h : containsSub pat l = true) : containsSub pat (l ++ l2) = true := by
  induction l with
  | nil =>
      have hpat : pat = [] := by
        cases pat with
        | nil => rfl
        | cons p ps => simp [containsSub, List.isPrefixOf] at h
      subst hpat
      cases l2 with
      | nil => simp [containsSub, List.isPrefixOf]
      | cons c cs => simp [containsSub, List.isPrefixOf]
  | cons c cs ih =>
      simp only [List.cons_append, containsSub, Bool.or_eq_true] at h ⊢
      rcases h with h | h
      · exact Or.inl (isPrefixOf_append h)
      · exact Or.inr (ih h)

theorem containsSub_append_left {pat l l2 : List Char}
    (h : containsSub pat l2 = true) : containsSub pat (l ++ l2) = true := by
  induction l with
  | nil => simpa using h
  | cons c cs ih =>
      simp only [List.cons_append, containsSub, Bool.or_eq_true]
      exact Or.inr ih

theorem pyLower_append (l1 l2 : List Char) :
    pyLower (l1 ++ l2) = pyLower l1 ++ pyLower l2 :=
  List.map_append lowerChar l1 l2

theorem containsSub_joinOR {pat : List Char} {g : String} {gs : List String}
    (h : containsSub pat (pyLower g.data) = true) :
    containsSub pat (pyLower (joinOR (g :: gs)).data) = true := by
  suffices H : ∀ (gs : List String) (acc : String),
      containsSub pat (pyLower acc.data) = true →
      containsSub pat
        (pyLower (gs.foldl (fun acc x => acc ++ " OR " ++ x) acc).data) = true by
    exact H gs g h
  intro gs
  induction gs with
  | nil => intro acc hacc; simpa using hacc
  | cons x xs ih =>
      intro acc hacc
      simp only [List.foldl_cons]
      apply ih
      rw [String.data_append, String.data_append, pyLower_append, pyLower_append]
      exact containsSub_append_right (containsSub_append_right hacc)

theorem is_gender_joinOR {g : String} {gs : List String}
    (h : is_gender_criterion g = true) :
    is_gender_criterion (joinOR (g :: gs)) = true := by
  simp only [is_gender_criterion, Bool.or_eq_true] at h ⊢
  rcases h with h | h
  · exact Or.inl (containsSub_joinOR h)
  · exact Or.inr (containsSub_joinOR h)

/-! ### Field lemmas for the entry builders -/

theorem mkHasEntry_criterion (pd : DetailMap) (c : String) :
    (mkHasEntry pd c).criterion = c := rfl

theorem mkHasEntry_flag (pd : DetailMap) (c : String) :
    (mkHasEntry pd c).is_gender_group = none := rfl

theorem mkNotHasEntry_criterion (c : String) :
    (mkNotHasEntry c).criterion = c := rfl

theorem mkNotHasEntry_flag (c : String) :
    (mkNotHasEntry c).is_gender_group = none := rfl

theorem mkGenderMetEntry_criterion (pd : DetailMap) (c : String) (g : List String) :
    (mkGenderMetEntry pd c g).criterion = c := rfl

theorem mkGenderMetEntry_flag (pd : DetailMap) (c : String) (g : List String) :
    (mkGenderMetEntry pd c g).is_gender_group = some true := rfl

theorem mkGenderMetEntry_options (pd : DetailMap) (c : String) (g : List String) :
    (mkGenderMetEntry pd c g).gender_group_options = some g := rfl

theorem mkGenderMissingEntry_criterion (g : List String) :
    (mkGenderMissingEntry g).criterion = joinOR g := rfl

theorem mkGenderMissingEntry_flag (g : List String) :
    (mkGenderMissingEntry g).is_gender_group = some true := rfl

/-! ### Lemmas about the evaluation loops -/

theorem eUI_length (pv : List String) (pd : DetailMap) (grp : List String)
    (cs : List String) :
    (evalUngroupedInclusion pv pd grp cs).1.length
      + (evalUngroupedInclusion pv pd grp cs).2.length
      + cs.countP (fun c => memStr grp c) = cs.length := by
  induction cs with
  | nil => simp [evalUngroupedInclusion]
  | cons c cs ih =>
      simp only [evalUngroupedInclusion, List.countP_cons, List.length_cons]
      by_cases h1 : memStr grp c = true
      · simp only [h1, if_true]
        omega
      · by_cases h2 : memStr pv (normalize_variable_name c) = true <;>
          simp only [h1, h2, if_true, if_false, Bool.false_eq_true, List.length_cons] <;>
          omega

theorem eUI_missing_nil (pv : List String) (pd : DetailMap) (grp : List String)
    (cs : List String) :
    (evalUngroupedInclusion pv pd grp cs).2 = [] ↔
      ∀ c ∈ cs, memStr grp c = false →
        memStr pv (normalize_variable_name c) = true := by
  induction cs with
  | nil => simp [evalUngroupedInclusion]
  | cons c cs ih =>
      simp only [evalUngroupedInclusion]
      by_cases h1 : memStr grp c = true
      · simp [h1, ih]
      · by_cases h2 : memStr pv (normalize_variable_name c) = true
        · simp [h1, h2, ih]
        · simp only [h1, h2, if_false, Bool.false_eq_true]
          constructor
          · intro h; exact absurd h (by simp)
          · intro h
            exact absurd (h c (by simp) (by simpa using h1)) (by simpa using h2)

theorem eUI_met_flags (pv : List String) (pd : DetailMap) (grp : List String)
    (cs : List String) :
    ∀ e ∈ (evalUngroupedInclusion pv pd grp cs).1, e.is_gender_group = none := by
  induction cs with
  | nil => simp [evalUngroupedInclusion]
  | cons c cs ih =>
      simp only [evalUngroupedInclusion]
      by_cases h1 : memStr grp c = true
      · simpa [h1] using ih
      · by_cases h2 : memStr pv (normalize_variable_name c) = true
        · intro e he
          simp only [h1, h2, if_true, if_false, Bool.false_eq_true, List.mem_cons] at he
          rcases he with he | he
          · subst he; rfl
          · exact ih e he
        · simpa [h1, h2] using ih

theorem eUI_missing_flags (pv : List String) (pd : DetailMap) (grp : List String)
    (cs : List String) :
    ∀ e ∈ (evalUngroupedInclusion pv pd grp cs).2, e.is_gender_group = none := by
  induction cs with
  | nil => simp [evalUngroupedInclusion]
  | cons c cs ih =>
      simp only [evalUngroupedInclusion]
      by_cases h1 : memStr grp c = true
      · simpa [h1] using ih
      · by_cases h2 : memStr pv (normalize_variable_name c) = true
        · simpa [h1, h2] using ih
        · intro e he
          simp only [h1, h2, if_true, if_false, Bool.false_eq_true, List.mem_cons] at he
          rcases he with he | he
          · subst he; rfl
          · exact ih e he

theorem eUI_countP (pv : List String) (pd : DetailMap) (grp : List String)
    (cs : List String) (c : String) (hc : memStr grp c = false) :
    (evalUngroupedInclusion pv pd grp cs).1.countP (fun e => e.criterion == c)
      + (evalUngroupedInclusion pv pd grp cs).2.countP (fun e => e.criterion == c)
      = cs.countP (fun x => x == c) := by
  induction cs with
  | nil => simp [evalUngroupedInclusion]
  | cons x cs ih =>
      simp only [evalUngroupedInclusion, List.countP_cons]
      by_cases h1 : memStr grp x = true
      · have hxc : (x == c) = false := by
          cases hbe : (x == c) with
          | false => rfl
          | true =>
              have hxceq : x = c := by simpa using hbe
              subst hxceq
              exact absurd h1 (by simp [hc])
        simp [h1, hxc, ih]
      · by_cases h2 : memStr pv (normalize_variable_name x) = true <;>
          simp only [h1, h2, if_true, if_false, Bool.false_eq_true,
            List.countP_cons, mkHasEntry_criterion, mkNotHasEntry_criterion] <;>
          omega

theorem eExcl_length (pv : List String) (pd : DetailMap) (cs : List String) :
    (evalExclusion pv pd cs).1.length + (evalExclusion pv pd cs).2.length
      = cs.length := by
  induction cs with
  | nil => simp [evalExclusion]
  | cons c cs ih =>
      simp only [evalExclusion, List.length_cons]
      by_cases h : memStr pv (normalize_variable_name c) = true <;>
        simp only [h, if_true, if_false, Bool.false_eq_true, List.length_cons] <;>
        omega

theorem eExcl_violated_nil (pv : List String) (pd : DetailMap) (cs : List String) :
    (evalExclusion pv pd cs).2 = [] ↔
      ∀ c ∈ cs, memStr pv (normalize_variable_name c) = false := by
  induction cs with
  | nil => simp [evalExclusion]
  | cons c cs ih =>
      simp only [evalExclusion]
      by_cases h : memStr pv (normalize_variable_name c) = true
      · simp only [h, if_true]
        constructor
        · intro hh; exact absurd hh (by simp)
        · intro hh; exact absurd (hh c (by simp)) (by simpa using h)
      · simp [h, ih]

theorem eExcl_countP (pv : List String) (pd : DetailMap) (cs : List String)
    (c : String) :
    (evalExclusion pv pd cs).1.countP (fun e => e.criterion == c)
      + (evalExclusion pv pd cs).2.countP (fun e => e.criterion == c)
      = cs.countP (fun x => x == c) := by
  induction cs with
  | nil => simp [evalExclusion]
  | cons x cs ih =>
      simp only [evalExclusion, List.countP_cons]
      by_cases h : memStr pv (normalize_variable_name x) = true <;>
        simp only [h, if_true, if_false, Bool.false_eq_true,
          List.countP_cons, mkHasEntry_criterion, mkNotHasEntry_criterion] <;>
        omega


theorem check_parts (p : PatientProfile) (t : TrialProfile) :
    check_trial_eligibility p t =
      { eligible := (inclPair p t).2.isEmpty && (exclPair p t).2.isEmpty,
        inclusion_criteria :=
          { total := (filteredInclusion t).length,
            met := (inclPair p t).1.length, missing := (inclPair p t).2.length,
            details := { met := (inclPair p t).1, missing := (inclPair p t).2 } },
        exclusion_criteria :=
          { total := (filteredExclusion t).length,
            satisfied := (exclPair p t).1.length,
            violated := (exclPair p t).2.length,
            details :=
              { satisfied := (exclPair p t).1,
                violated := (exclPair p t).2 } } } := rfl

theorem gmeg_eq_nil {l : List String}
    (h : (l.filter is_gender_criterion).length ≤ 1) :
    get_mutually_exclusive_gender_criteria l = [] := by
  simp [get_mutually_exclusive_gender_criteria, h]

theorem gmeg_eq_single {l : List String}
    (h : ¬(l.filter is_gender_criterion).length ≤ 1) :
    get_mutually_exclusive_gender_criteria l = [l.filter is_gender_criterion] := by
  simp [get_mutually_exclusive_gender_criteria, h]

theorem genderGroupSet_nil : genderGroupSet [] = [] := rfl

theorem genderGroupSet_single (G : List String) : genderGroupSet [G] = G := by
  simp [genderGroupSet]

theorem eGG_nil (pv : List String) (pd : DetailMap) (acc : List Entry × List Entry) :
    evalGenderGroups pv pd acc [] = acc := rfl

theorem eGG_single_found (pv : List String) (pd : DetailMap)
    (acc : List Entry × List Entry) (G : List String) (c₀ : String)
    (h : G.find? (fun c => memStr pv (normalize_variable_name c)) = some c₀) :
    evalGenderGroups pv pd acc [G] =
      (acc.1 ++ [mkGenderMetEntry pd c₀ G], acc.2) := by
  simp [evalGenderGroups, h]

theorem eGG_single_none (pv : List String) (pd : DetailMap)
    (acc : List Entry × List Entry) (G : List String)
    (h : G.find? (fun c => memStr pv (normalize_variable_name c)) = none) :
    evalGenderGroups pv pd acc [G] =
      (acc.1, acc.2 ++ [mkGenderMissingEntry G]) := by
  simp [evalGenderGroups, h]

/-- Elements of the gender filter are gender criteria. -/
theorem memStr_gender_filter {l : List String} {c : String}
    (h : memStr (l.filter is_gender_criterion) c = true) :
    is_gender_criterion c = true :=
  (List.mem_filter.mp ((memStr_iff _ _).mp h)).2

/-- A non-gender criterion is never in the gender filter. -/
theorem memStr_gender_filter_false {l : List String} {c : String}
    (h : is_gender_criterion c = false) :
    memStr (l.filter is_gender_criterion) c = false := by
  cases hm : memStr (l.filter is_gender_criterion) c with
  | false => rfl
  | true => exact absurd (memStr_gender_filter hm) (by simp [h])

/-- Over the inclusion list, membership in the gender filter agrees with the
gender classification itself. -/
theorem countP_memStr_gender (l : List String) :
    l.countP (fun c => memStr (l.filter is_gender_criterion) c)
      = l.countP is_gender_criterion := by
  apply List.countP_congr
  intro x hx
  constructor
  · intro hmem
    exact memStr_gender_filter hmem
  · intro hgx
    exact (memStr_iff _ _).mpr (List.mem_filter.mpr ⟨hx, hgx⟩)

theorem countP_memStr_nil (l : List String) :
    l.countP (fun c => memStr [] c) = 0 := by
  simp [memStr]

theorem check_eligible_eq (p : PatientProfile) (t : TrialProfile) :
    (check_trial_eligibility p t).eligible
      = ((inclPair p t).2.isEmpty && (exclPair p t).2.isEmpty) := rfl

theorem check_incl_total (p : PatientProfile) (t : TrialProfile) :
    (check_trial_eligibility p t).inclusion_criteria.total
      = (filteredInclusion t).length := rfl

theorem check_incl_met (p : PatientProfile) (t : TrialProfile) :
    (check_trial_eligibility p t).inclusion_criteria.met
      = (inclPair p t).1.length := rfl

theorem check_incl_missing (p : PatientProfile) (t : TrialProfile) :
    (check_trial_eligibility p t).inclusion_criteria.missing
      = (inclPair p t).2.length := rfl

theorem check_incl_det_met (p : PatientProfile) (t : TrialProfile) :
    (check_trial_eligibility p t).inclusion_criteria.details.met
      = (inclPair p t).1 := rfl

theorem check_incl_det_missing (p : PatientProfile) (t : TrialProfile) :
    (check_trial_eligibility p t).inclusion_criteria.details.missing
      = (inclPair p t).2 := rfl

theorem check_excl_total (p : PatientProfile) (t : TrialProfile) :
    (check_trial_eligibility p t).exclusion_criteria.total
      = (filteredExclusion t).length := rfl

theorem check_excl_satisfied (p : PatientProfile) (t : TrialProfile) :
    (check_trial_eligibility p t).exclusion_criteria.satisfied
      = (exclPair p t).1.length := rfl

theorem check_excl_violated (p : PatientProfile) (t : TrialProfile) :
    (check_trial_eligibility p t).exclusion_criteria.violated
      = (exclPair p t).2.length := rfl

theorem check_excl_det_satisfied (p : PatientProfile) (t : TrialProfile) :
    (check_trial_eligibility p t).exclusion_criteria.details.satisfied
      = (exclPair p t).1 := rfl

theorem check_excl_det_violated (p : PatientProfile) (t : TrialProfile) :
    (check_trial_eligibility p t).exclusion_criteria.details.violated
      = (exclPair p t).2 := rfl

theorem inclPair_low (p : PatientProfile) (t : TrialProfile)
    (hg : (List.filter is_gender_criterion (filteredInclusion t)).length ≤ 1) :
    inclPair p t
      = evalUngroupedInclusion (pvOf p) (pdOf p) [] (filteredInclusion t) := by
  unfold inclPair groupsOf
  rw [gmeg_eq_nil hg]
  rfl

theorem groupsOf_single (t : TrialProfile)
    (hg : ¬(List.filter is_gender_criterion (filteredInclusion t)).length ≤ 1) :
    groupsOf t = [(filteredInclusion t).filter is_gender_criterion] := by
  unfold groupsOf
  exact gmeg_eq_single hg

theorem inclPair_single_found (p : PatientProfile) (t : TrialProfile)
    (G : List String) (c₀ : String) (hG : groupsOf t = [G])
    (hfind : G.find? (fun c => memStr (pvOf p) (normalize_variable_name c))
      = some c₀) :
    inclPair p t =
      ((evalUngroupedInclusion (pvOf p) (pdOf p) G (filteredInclusion t)).1
          ++ [mkGenderMetEntry (pdOf p) c₀ G],
        (evalUngroupedInclusion (pvOf p) (pdOf p) G (filteredInclusion t)).2) := by
  unfold inclPair
  rw [hG, genderGroupSet_single, eGG_single_found _ _ _ _ _ hfind]

theorem inclPair_single_none (p : PatientProfile) (t : TrialProfile)
    (G : List String) (hG : groupsOf t = [G])
    (hfind : G.find? (fun c => memStr (pvOf p) (normalize_variable_name c))
      = none) :
    inclPair p t =
      ((evalUngroupedInclusion (pvOf p) (pdOf p) G (filteredInclusion t)).1,
        (evalUngroupedInclusion (pvOf p) (pdOf p) G (filteredInclusion t)).2
          ++ [mkGenderMissingEntry G]) := by
  unfold inclPair
  rw [hG, genderGroupSet_single, eGG_single_none _ _ _ _ hfind]


/-! ### Claims -/

/-- C1, counterexample: when the filtered inclusion list holds two gender
criteria, `check_trial_eligibility` collapses them into one OR-group entry,
so `inclusion.met + inclusion.missing` is 1 while `inclusion.total` is 2 and
the claimed count invariant fails. -/
theorem C1_counterexample :
    ¬ ((check_trial_eligibility pEmpty tTwoGender).inclusion_criteria.met
        + (check_trial_eligibility pEmpty tTwoGender).inclusion_criteria.missing
      = (check_trial_eligibility pEmpty tTwoGender).inclusion_criteria.total) := by
  decide

/-- C1, amended: the exclusion count invariant
`satisfied + violated = total` always holds, and on the inclusion side
`met + missing = total` holds exactly up to the gender-group collapse: with
`g` gender criteria in the filtered inclusion list,
`met + missing + g = total + 1` when `g ≥ 2` (the group contributes a single
entry) and `met + missing = total` when `g ≤ 1`. -/
theorem C1_count_invariant_amended (p : PatientProfile) (t : TrialProfile) :
    (check_trial_eligibility p t).exclusion_criteria.satisfied
        + (check_trial_eligibility p t).exclusion_criteria.violated
      = (check_trial_eligibility p t).exclusion_criteria.total
    ∧ (check_trial_eligibility p t).inclusion_criteria.met
        + (check_trial_eligibility p t).inclusion_criteria.missing
        + (filteredInclusion t).countP is_gender_criterion
      = (check_trial_eligibility p t).inclusion_criteria.total
        + (if 2 ≤ (filteredInclusion t).countP is_gender_criterion then 1
           else (filteredInclusion t).countP is_gender_criterion) := by
  constructor
  · rw [check_excl_satisfied, check_excl_violated, check_excl_total]
    exact eExcl_length _ _ _
  · rw [check_incl_met, check_incl_missing, check_incl_total]
    by_cases hg : (List.filter is_gender_criterion (filteredInclusion t)).length ≤ 1
    · have hpair := inclPair_low p t hg
      have hlen := eUI_length (pvOf p) (pdOf p) [] (filteredInclusion t)
      rw [countP_memStr_nil] at hlen
      have hgle : (filteredInclusion t).countP is_gender_criterion ≤ 1 := by
        rwa [List.countP_eq_length_filter]
      rw [hpair, if_neg (by omega)]
      omega
    · have hG := groupsOf_single t hg
      have hg2 : 2 ≤ (filteredInclusion t).countP is_gender_criterion := by
        rw [List.countP_eq_length_filter]; omega
      have hlen := eUI_length (pvOf p) (pdOf p)
        ((filteredInclusion t).filter is_gender_criterion) (filteredInclusion t)
      rw [countP_memStr_gender] at hlen
      rcases hfind : ((filteredInclusion t).filter is_gender_criterion).find?
          (fun c => memStr (pvOf p) (normalize_variable_name c)) with _ | c₀
      · rw [inclPair_single_none p t _ hG hfind, if_pos hg2]
        simp only [List.length_append, List.length_cons, List.length_nil]
        omega
      · rw [inclPair_single_found p t _ c₀ hG hfind, if_pos hg2]
        simp only [List.length_append, List.length_cons, List.length_nil]
        omega

theorem groupsOf_nil (t : TrialProfile)
    (hg : (List.filter is_gender_criterion (filteredInclusion t)).length ≤ 1) :
    groupsOf t = [] := gmeg_eq_nil hg

theorem exclPair_violated_nil (p : PatientProfile) (t : TrialProfile) :
    (exclPair p t).2 = [] ↔
      ∀ c ∈ filteredExclusion t,
        memStr (pvOf p) (normalize_variable_name c) = false :=
  eExcl_violated_nil _ _ _

/-- The inclusion `missing` list is empty iff every non-grouped filtered
inclusion criterion matches and every gender group has a matching option. -/
theorem inclPair_missing_nil (p : PatientProfile) (t : TrialProfile) :
    (inclPair p t).2 = [] ↔
      ((∀ c ∈ filteredInclusion t,
          memStr (genderGroupSet (groupsOf t)) c = false →
            memStr (pvOf p) (normalize_variable_name c) = true)
        ∧ (∀ G ∈ groupsOf t, ∃ c ∈ G,
            memStr (pvOf p) (normalize_variable_name c) = true)) := by
  by_cases hg : (List.filter is_gender_criterion (filteredInclusion t)).length ≤ 1
  · rw [inclPair_low p t hg, groupsOf_nil t hg, genderGroupSet_nil,
      eUI_missing_nil]
    simp
  · have hG := groupsOf_single t hg
    rw [hG, genderGroupSet_single]
    rcases hfind : ((filteredInclusion t).filter is_gender_criterion).find?
        (fun c => memStr (pvOf p) (normalize_variable_name c)) with _ | c₀
    · rw [inclPair_single_none p t _ hG hfind]
      constructor
      · intro h
        exact absurd (List.append_eq_nil.mp h).2 (by simp)
      · rintro ⟨h1, h2⟩
        obtain ⟨c, hcG, hcP⟩ :=
          h2 (List.filter is_gender_criterion (filteredInclusion t))
            (List.mem_singleton_self _)
        have hnone := List.find?_eq_none.mp hfind c hcG
        exact absurd hcP (by simpa using hnone)
    · rw [inclPair_single_found p t _ c₀ hG hfind, eUI_missing_nil]
      have hpc : memStr (pvOf p) (normalize_variable_name c₀) = true := by
        have hh := List.find?_some hfind
        simpa using hh
      have hex : ∃ c ∈ (filteredInclusion t).filter is_gender_criterion,
          memStr (pvOf p) (normalize_variable_name c) = true :=
        ⟨c₀, List.mem_of_find?_eq_some hfind, hpc⟩
      simp only [List.mem_singleton, forall_eq]
      constructor
      · intro h; exact ⟨h, hex⟩
      · rintro ⟨h, _⟩; exact h

/-- C2: `eligible` is true iff the `missing` and `violated` detail lists are
both empty; equivalently, iff every non-ignored non-grouped inclusion
criterion's normalized key is in the patient's variable set, every gender
group has at least one matching option, and no non-ignored exclusion
criterion's normalized key is in the patient's variable set. -/
theorem C2_eligible_iff (p : PatientProfile) (t : TrialProfile) :
    ((check_trial_eligibility p t).eligible = true ↔
        (check_trial_eligibility p t).inclusion_criteria.details.missing = []
          ∧ (check_trial_eligibility p t).exclusion_criteria.details.violated = [])
    ∧ ((check_trial_eligibility p t).eligible = true ↔
        (∀ c ∈ filteredInclusion t,
            memStr (genderGroupSet (groupsOf t)) c = false →
              memStr (pvOf p) (normalize_variable_name c) = true)
          ∧ (∀ G ∈ groupsOf t, ∃ c ∈ G,
              memStr (pvOf p) (normalize_variable_name c) = true)
          ∧ (∀ c ∈ filteredExclusion t,
              memStr (pvOf p) (normalize_variable_name c) = false)) := by
  have h1 : (check_trial_eligibility p t).eligible = true ↔
      (inclPair p t).2 = [] ∧ (exclPair p t).2 = [] := by
    rw [check_eligible_eq]
    simp [List.isEmpty_iff]
  constructor
  · rw [check_incl_det_missing, check_excl_det_violated]
    exact h1
  · rw [h1, inclPair_missing_nil, exclPair_violated_nil]
    tauto

/-- The ungrouped inclusion `met` entries never carry the gender flag. -/
theorem eUI_met_filter_flag_nil (pv : List String) (pd : DetailMap)
    (grp : List String) (cs : List String) :
    (evalUngroupedInclusion pv pd grp cs).1.filter
      (fun e => e.is_gender_group == some true) = [] := by
  rw [List.filter_eq_nil_iff]
  intro e he
  have hf := eUI_met_flags pv pd grp cs e he
  simp [hf]

/-- The ungrouped inclusion `missing` entries never carry the gender flag. -/
theorem eUI_missing_filter_flag_nil (pv : List String) (pd : DetailMap)
    (grp : List String) (cs : List String) :
    (evalUngroupedInclusion pv pd grp cs).2.filter
      (fun e => e.is_gender_group == some true) = [] := by
  rw [List.filter_eq_nil_iff]
  intro e he
  have hf := eUI_missing_flags pv pd grp cs e he
  simp [hf]

/-- C3: when the filtered inclusion list has two or more gender criteria
(`groupsOf t = [G]`) and the first matching option of the group is `c₀`,
the output has exactly one gender-flagged `met` entry — for `c₀`, with the
full option set attached — and no gender-flagged `missing` entry. -/
theorem C3_gender_group_first_match (p : PatientProfile) (t : TrialProfile)
    (G : List String) (c₀ : String) (hG : groupsOf t = [G])
    (hfind : G.find? (fun c => memStr (pvOf p) (normalize_variable_name c))
      = some c₀) :
    ((check_trial_eligibility p t).inclusion_criteria.details.met.filter
        (fun e => e.is_gender_group == some true)).map
        (fun e => (e.criterion, e.gender_group_options))
      = [(c₀, some G)]
    ∧ ∀ e ∈ (check_trial_eligibility p t).inclusion_criteria.details.missing,
        e.is_gender_group = none := by
  rw [check_incl_det_met, check_incl_det_missing,
    inclPair_single_found p t G c₀ hG hfind]
  constructor
  · rw [List.filter_append, eUI_met_filter_flag_nil]
    simp [mkGenderMetEntry_flag, mkGenderMetEntry_criterion,
      mkGenderMetEntry_options]
  · intro e he
    exact eUI_missing_flags _ _ _ _ e he

/-- C3 witness: a female patient against a trial listing both sex criteria. -/
theorem C3_witness :
    groupsOf tTwoGender = [["patient_sex_is_male", "patient_sex_is_female"]]
    ∧ (["patient_sex_is_male", "patient_sex_is_female"].find?
        (fun c => memStr (pvOf pFemale) (normalize_variable_name c))
          = some "patient_sex_is_female")
    ∧ (((check_trial_eligibility pFemale tTwoGender).inclusion_criteria.details.met.filter
          (fun e => e.is_gender_group == some true)).map
          (fun e => (e.criterion, e.gender_group_options))
        = [("patient_sex_is_female",
            some ["patient_sex_is_male", "patient_sex_is_female"])]
      ∧ ∀ e ∈ (check_trial_eligibility pFemale tTwoGender).inclusion_criteria.details.missing,
          e.is_gender_group = none) :=
  ⟨by decide, by decide,
    C3_gender_group_first_match pFemale tTwoGender
      ["patient_sex_is_male", "patient_sex_is_female"] "patient_sex_is_female"
      (by decide) (by decide)⟩

/-- C4 counterexample: for inclusion criteria
`["patient_sex_is_male", "patient_sex_is_female"]` and a patient matching
neither, the single group `missing` entry's human-readable label is
`"Gender: Sex is male OR Sex is female"`, which is not the plain
`" OR "`-join of the options' readable labels: the code prepends the
literal `"Gender: "`. -/
theorem C4_counterexample :
    ((check_trial_eligibility pEmpty tTwoGender).inclusion_criteria.details.missing.map
        (fun e => e.readable_name))
      = ["Gender: Sex is male OR Sex is female"]
    ∧ "Gender: Sex is male OR Sex is female"
        ≠ joinOR (["patient_sex_is_male", "patient_sex_is_female"].map
            (fun c => format_criterion_name c none)) := by
  constructor
  · decide
  · decide

/-- C4, amended: when no option of the gender group matches, the output has
exactly one gender-flagged `missing` entry whose criterion is the options
joined by `" OR "`, whose normalized key is the sentinel
`gender_criterion_group`, and whose label is the options' readable labels
joined by `" OR "`, prefixed by the literal `"Gender: "`. -/
theorem C4_gender_group_missing_amended (p : PatientProfile) (t : TrialProfile)
    (G : List String) (hG : groupsOf t = [G])
    (hfind : G.find? (fun c => memStr (pvOf p) (normalize_variable_name c))
      = none) :
    ((check_trial_eligibility p t).inclusion_criteria.details.missing.filter
        (fun e => e.is_gender_group == some true)).map
        (fun e => (e.criterion, e.normalized, e.readable_name))
      = [(joinOR G, "gender_criterion_group",
          "Gender: " ++ joinOR (G.map (fun c => format_criterion_name c none)))] := by
  rw [check_incl_det_missing, inclPair_single_none p t G hG hfind,
    List.filter_append, eUI_missing_filter_flag_nil]
  simp [mkGenderMissingEntry]

/-- C4 witness: the empty patient against the two-sex-criteria trial. -/
theorem C4_witness :
    groupsOf tTwoGender = [["patient_sex_is_male", "patient_sex_is_female"]]
    ∧ (["patient_sex_is_male", "patient_sex_is_female"].find?
        (fun c => memStr (pvOf pEmpty) (normalize_variable_name c)) = none)
    ∧ ((check_trial_eligibility pEmpty tTwoGender).inclusion_criteria.details.missing.filter
        (fun e => e.is_gender_group == some true)).map
        (fun e => (e.criterion, e.normalized, e.readable_name))
      = [(joinOR ["patient_sex_is_male", "patient_sex_is_female"],
          "gender_criterion_group",
          "Gender: " ++ joinOR (["patient_sex_is_male", "patient_sex_is_female"].map
            (fun c => format_criterion_name c none)))] :=
  ⟨by decide, by decide,
    C4_gender_group_missing_amended pEmpty tTwoGender
      ["patient_sex_is_male", "patient_sex_is_female"] (by decide) (by decide)⟩

/-- Removing occurrences of an ignorable criterion does not change the
ignore-filtered list. -/
theorem filter_not_ignore_erase {c : String}
    (hc : should_ignore_criterion c = true) (l : List String) :
    (l.filter (fun x => !(x == c))).filter (fun x => !should_ignore_criterion x)
      = l.filter (fun x => !should_ignore_criterion x) := by
  induction l with
  | nil => rfl
  | cons x xs ih =>
      by_cases hxc : x = c
      · subst hxc
        simp [List.filter_cons, hc, ih]
      · have hbe : (x == c) = false := by simp [hxc]
        simp [List.filter_cons, hbe, ih]

/-- The evaluator `check_trial_eligibility` depends on the trial only through the two
ignore-filtered criteria lists. -/
theorem check_eq_of_filtered {p : PatientProfile} {t t2 : TrialProfile}
    (hi : filteredInclusion t2 = filteredInclusion t)
    (he : filteredExclusion t2 = filteredExclusion t) :
    check_trial_eligibility p t = check_trial_eligibility p t2 := by
  unfold check_trial_eligibility
  rw [hi, he]

/-- C5: a criterion satisfying the ignore rule is dropped before evaluation:
deleting all its occurrences from both trial lists leaves the whole
reasoning object — totals, counts and every detail list — unchanged, for
every patient. -/
theorem C5_ignore_rule (c : String) (p : PatientProfile) (t : TrialProfile)
    (hc : should_ignore_criterion c = true) :
    check_trial_eligibility p t
      = check_trial_eligibility p
          { inclusion_criteria :=
              some ((t.inclusion_criteria.getD []).filter (fun x => !(x == c))),
            exclusion_criteria :=
              some ((t.exclusion_criteria.getD []).filter (fun x => !(x == c))) } := by
  apply check_eq_of_filtered
  · simp only [filteredInclusion, Option.getD_some]
    exact filter_not_ignore_erase hc _
  · simp only [filteredExclusion, Option.getD_some]
    exact filter_not_ignore_erase hc _


/-- C5 witness: deleting `patient_age_value_recorded_in_months` from a
concrete trial leaves the reasoning object unchanged. -/
theorem C5_witness :
    should_ignore_criterion "patient_age_value_recorded_in_months" = true
    ∧ check_trial_eligibility scenPatient tIgnore
        = check_trial_eligibility scenPatient
            { inclusion_criteria :=
                some ((tIgnore.inclusion_criteria.getD []).filter
                  (fun x => !(x == "patient_age_value_recorded_in_months"))),
              exclusion_criteria :=
                some ((tIgnore.exclusion_criteria.getD []).filter
                  (fun x => !(x == "patient_age_value_recorded_in_months"))) } :=
  ⟨by decide,
    C5_ignore_rule "patient_age_value_recorded_in_months" scenPatient tIgnore
      (by decide)⟩

/-- C6 counterexample: normalization is not idempotent — one pass strips a
single `_now` suffix of `a_now_now`, a second pass strips another. -/
theorem C6_counterexample :
    normalize_variable_name (normalize_variable_name "a_now_now")
      ≠ normalize_variable_name "a_now_now" := by
  decide

/-- A string on which no normalization rule fires is a fixpoint of
`normalize_variable_name`. -/
theorem normalize_fix (y : String)
    (h1 : pyLower y.data = y.data) (h2 : pyStrip y.data = y.data)
    (h3 : subInthe y.data = y.data) (h4 : subNowIn y.data = y.data)
    (h5 : stripBasicSuffix y.data = y.data) :
    normalize_variable_name y = y := by
  unfold normalize_variable_name normList
  rw [h1, h2, h3, h4, h5]

/-- C6, amended: `normalize_variable_name` is idempotent at `x` whenever no
rule of the pipeline (lower-casing, strip, `_inthe*` removal, `_now_in`
substitution, literal-suffix removal) changes `normalize_variable_name x`
again; in general idempotence fails (see the counterexample `a_now_now`,
whose normal form `a_now` still ends in a strippable suffix). -/
theorem C6_idempotent_amended (x : String)
    (h1 : pyLower (normalize_variable_name x).data
      = (normalize_variable_name x).data)
    (h2 : pyStrip (normalize_variable_name x).data
      = (normalize_variable_name x).data)
    (h3 : subInthe (normalize_variable_name x).data
      = (normalize_variable_name x).data)
    (h4 : subNowIn (normalize_variable_name x).data
      = (normalize_variable_name x).data)
    (h5 : stripBasicSuffix (normalize_variable_name x).data
      = (normalize_variable_name x).data) :
    normalize_variable_name (normalize_variable_name x)
      = normalize_variable_name x :=
  normalize_fix (normalize_variable_name x) h1 h2 h3 h4 h5

/-- C6 witness: `Patient_Has_Diabetes_NOW` normalizes to
`patient_has_diabetes`, on which no further rule fires. -/
theorem C6_witness :
    pyLower (normalize_variable_name "Patient_Has_Diabetes_NOW").data
        = (normalize_variable_name "Patient_Has_Diabetes_NOW").data
    ∧ normalize_variable_name
        (normalize_variable_name "Patient_Has_Diabetes_NOW")
      = normalize_variable_name "Patient_Has_Diabetes_NOW" :=
  ⟨by decide,
    C6_idempotent_amended "Patient_Has_Diabetes_NOW" (by decide) (by decide)
      (by decide) (by decide) (by decide)⟩

/-- C7: the `_inthe*` rule and the `_now` literal-suffix rule send
`patient_has_diabetes_inthehistory` and `patient_has_diabetes_now` to the
same normalized key `patient_has_diabetes`. -/
theorem C7_suffix_stripping :
    normalize_variable_name "patient_has_diabetes_inthehistory"
        = "patient_has_diabetes"
    ∧ normalize_variable_name "patient_has_diabetes_now"
        = "patient_has_diabetes" := by
  constructor
  · decide
  · decide


/-- C8 counterexample: a gender criterion duplicated in the inclusion list
occurs twice in the filtered list but produces zero entries carrying that
criterion string — the two duplicates collapse into a single OR-group entry
(whose criterion field is the joined string), so duplicates do not each
appear as their own entry. -/
theorem C8_counterexample :
    (filteredInclusion tDupGender).countP (fun x => x == "patient_sex_is_male") = 2
    ∧ ((check_trial_eligibility pEmpty tDupGender).inclusion_criteria.details.met
        ++ (check_trial_eligibility pEmpty tDupGender).inclusion_criteria.details.missing).countP
          (fun e => e.criterion == "patient_sex_is_male") = 0 := by
  constructor
  · decide
  · decide

/-- C8, amended: every duplicate occurrence of a criterion appears as its
own output entry on the exclusion side unconditionally, and on the
inclusion side for non-gender criteria; duplicated gender inclusion
criteria can instead collapse into the single group entry. -/
theorem C8_duplicates_amended (p : PatientProfile) (t : TrialProfile)
    (c : String) :
    ((check_trial_eligibility p t).exclusion_criteria.details.satisfied.countP
          (fun e => e.criterion == c)
        + (check_trial_eligibility p t).exclusion_criteria.details.violated.countP
          (fun e => e.criterion == c)
      = (filteredExclusion t).countP (fun x => x == c))
    ∧ (is_gender_criterion c = false →
        (check_trial_eligibility p t).inclusion_criteria.details.met.countP
            (fun e => e.criterion == c)
          + (check_trial_eligibility p t).inclusion_criteria.details.missing.countP
            (fun e => e.criterion == c)
        = (filteredInclusion t).countP (fun x => x == c)) := by
  constructor
  · rw [check_excl_det_satisfied, check_excl_det_violated]
    exact eExcl_countP _ _ _ _
  · intro hcg
    rw [check_incl_det_met, check_incl_det_missing]
    by_cases hg : (List.filter is_gender_criterion (filteredInclusion t)).length ≤ 1
    · rw [inclPair_low p t hg]
      exact eUI_countP (pvOf p) (pdOf p) [] (filteredInclusion t) c rfl
    · have hG := groupsOf_single t hg
      have hcmem : memStr ((filteredInclusion t).filter is_gender_criterion) c
          = false := memStr_gender_filter_false hcg
      have hbase := eUI_countP (pvOf p) (pdOf p)
        ((filteredInclusion t).filter is_gender_criterion)
        (filteredInclusion t) c hcmem
      have hGne : (filteredInclusion t).filter is_gender_criterion ≠ [] := by
        intro hnil
        rw [hnil] at hg
        simp at hg
      obtain ⟨g, gs, hcons⟩ : ∃ g gs,
          (filteredInclusion t).filter is_gender_criterion = g :: gs := by
        cases hc2 : (filteredInclusion t).filter is_gender_criterion with
        | nil => exact absurd hc2 hGne
        | cons a b => exact ⟨a, b, rfl⟩
      have hgg : is_gender_criterion g = true := by
        have hmem : g ∈ (filteredInclusion t).filter is_gender_criterion := by
          rw [hcons]
          exact List.mem_cons_self g gs
        exact (List.mem_filter.mp hmem).2
      rcases hfind : ((filteredInclusion t).filter is_gender_criterion).find?
          (fun x => memStr (pvOf p) (normalize_variable_name x)) with _ | c₀
      · rw [inclPair_single_none p t _ hG hfind, List.countP_append]
        have hjoin : is_gender_criterion
            (joinOR ((filteredInclusion t).filter is_gender_criterion)) = true := by
          rw [hcons]
          exact is_gender_joinOR hgg
        have hne : ((mkGenderMissingEntry
            ((filteredInclusion t).filter is_gender_criterion)).criterion == c)
            = false := by
          rw [mkGenderMissingEntry_criterion]
          cases hbe : (joinOR ((filteredInclusion t).filter is_gender_criterion) == c) with
          | false => rfl
          | true =>
              have heq := beq_iff_eq.mp hbe
              rw [heq] at hjoin
              exact absurd hjoin (by simp [hcg])
        simp only [List.countP_cons, List.countP_nil, hne, if_false,
          Bool.false_eq_true]
        omega
      · rw [inclPair_single_found p t _ c₀ hG hfind, List.countP_append]
        have hc₀g : is_gender_criterion c₀ = true :=
          (List.mem_filter.mp (List.mem_of_find?_eq_some hfind)).2
        have hne : ((mkGenderMetEntry (pdOf p) c₀
            ((filteredInclusion t).filter is_gender_criterion)).criterion == c)
            = false := by
          rw [mkGenderMetEntry_criterion]
          cases hbe : (c₀ == c) with
          | false => rfl
          | true =>
              have heq := beq_iff_eq.mp hbe
              rw [heq] at hc₀g
              exact absurd hc₀g (by simp [hcg])
        simp only [List.countP_cons, List.countP_nil, hne, if_false,
          Bool.false_eq_true]
        omega


/-- C8 witness: the amended duplicate-counting law at a concrete
patient/trial with a duplicated non-gender criterion on each side. -/
theorem C8_witness :
    is_gender_criterion "patient_has_diabetes" = false
    ∧ ((check_trial_eligibility scenPatient tDupPlain).exclusion_criteria.details.satisfied.countP
          (fun e => e.criterion == "patient_has_diabetes")
        + (check_trial_eligibility scenPatient tDupPlain).exclusion_criteria.details.violated.countP
          (fun e => e.criterion == "patient_has_diabetes")
      = (filteredExclusion tDupPlain).countP (fun x => x == "patient_has_diabetes"))
    ∧ ((check_trial_eligibility scenPatient tDupPlain).inclusion_criteria.details.met.countP
          (fun e => e.criterion == "patient_has_diabetes")
        + (check_trial_eligibility scenPatient tDupPlain).inclusion_criteria.details.missing.countP
          (fun e => e.criterion == "patient_has_diabetes")
      = (filteredInclusion tDupPlain).countP (fun x => x == "patient_has_diabetes")) :=
  ⟨by decide,
    (C8_duplicates_amended scenPatient tDupPlain "patient_has_diabetes").1,
    (C8_duplicates_amended scenPatient tDupPlain "patient_has_diabetes").2
      (by decide)⟩

/-- The evaluator `check_trial_eligibility` depends on the patient only through the
variable set and detail map. -/
theorem check_eq_of_build {p p2 : PatientProfile} {t : TrialProfile}
    (hb : build_patient_variable_set p = build_patient_variable_set p2) :
    check_trial_eligibility p t = check_trial_eligibility p2 t := by
  unfold check_trial_eligibility
  rw [hb]

/-- C9: the evaluator (a total Lean function here, mirroring the raise-free
Python code) treats a missing `conditions` key as an empty condition list, a
condition with a missing or empty `entity_variable_name` as absent, and a
missing `inclusion_criteria`/`exclusion_criteria` key as an empty criteria
list — producing the identical reasoning object in each case. -/
theorem C9_malformed_defaults :
    (∀ t : TrialProfile,
        check_trial_eligibility { conditions := none } t
          = check_trial_eligibility { conditions := some [] } t)
    ∧ (∀ (t : TrialProfile) (cs : List Condition) (cond : Condition),
        cond.entity_variable_name = none ∨ cond.entity_variable_name = some "" →
        check_trial_eligibility { conditions := some (cond :: cs) } t
          = check_trial_eligibility { conditions := some cs } t)
    ∧ (∀ (p : PatientProfile) (e : Option (List String)),
        check_trial_eligibility p
            { inclusion_criteria := none, exclusion_criteria := e }
          = check_trial_eligibility p
              { inclusion_criteria := some [], exclusion_criteria := e })
    ∧ (∀ (p : PatientProfile) (i : Option (List String)),
        check_trial_eligibility p
            { inclusion_criteria := i, exclusion_criteria := none }
          = check_trial_eligibility p
              { inclusion_criteria := i, exclusion_criteria := some [] }) := by
  refine ⟨fun t => rfl, ?_, fun p e => rfl, fun p i => rfl⟩
  intro t cs cond h
  apply check_eq_of_build
  unfold build_patient_variable_set
  simp only [Option.getD_some, List.foldl_cons]
  rcases h with h | h
  · rw [h]
  · rw [h]
    simp

/-- C9 witness: concrete malformed records evaluate like their defaulted
forms. -/
theorem C9_witness :
    check_trial_eligibility { conditions := none } tTwoGender
        = check_trial_eligibility { conditions := some [] } tTwoGender
    ∧ check_trial_eligibility
          { conditions := some [{ entity_variable_name := some "" }] } tTwoGender
        = check_trial_eligibility { conditions := some [] } tTwoGender :=
  ⟨C9_malformed_defaults.1 tTwoGender,
    C9_malformed_defaults.2.1 tTwoGender [] { entity_variable_name := some "" }
      (Or.inr rfl)⟩

/-- C10 counterexample: `agent.py` rewrites `_now_in` to `_in` but
`verify_eligibility.py` does not, so the two normalizers disagree on
`a_now_in_years`. -/
theorem C10_counterexample :
    normalize_variable_name "a_now_in_years"
      ≠ Verify.normalize_variable_name "a_now_in_years" := by
  decide

/-- C10, amended: the two normalizers agree exactly on inputs where the two
extra rules of `agent.py` do nothing: whenever the lower-cased input is
already whitespace-trimmed and the `_now_in` substitution does not fire
after the `_inthe*` removal, both return the same key; otherwise they can
differ (e.g. on `a_now_in_years`, or on inputs with surrounding
whitespace). -/
theorem C10_normalizers_agree_amended (s : String)
    (h1 : pyStrip (pyLower s.data) = pyLower s.data)
    (h2 : subNowIn (subInthe (pyLower s.data)) = subInthe (pyLower s.data)) :
    normalize_variable_name s = Verify.normalize_variable_name s := by
  unfold normalize_variable_name Verify.normalize_variable_name normList
  rw [h1, h2]

/-- C10 witness: both normalizers send `patient_has_diabetes_now` to the
same key. -/
theorem C10_witness :
    pyStrip (pyLower "patient_has_diabetes_now".data)
        = pyLower "patient_has_diabetes_now".data
    ∧ normalize_variable_name "patient_has_diabetes_now"
        = Verify.normalize_variable_name "patient_has_diabetes_now" :=
  ⟨by decide,
    C10_normalizers_agree_amended "patient_has_diabetes_now" (by decide)
      (by decide)⟩

end ClinicalTrial
